import Mathlib

/-!
Verification of the `bsc` beanstalkd wire-protocol engine
(`src/workspace/core/src/{parser,protocol,yaml}.rs`) via a shallow
embedding.  Byte buffers (`&[u8]`) are embedded as `List Nat`, matcher
results (`type R<'a, O> = Result<(&'a [u8], O), (&'a [u8], ErrorKind)>`)
as `Except (Buf × ErrorKind) (Buf × O)`.  The payloads carried by the Rust
error variants (`ParseIntError`, `ParseFloatError`, `Utf8Error`) carry no
information used by the engine and are dropped.
-/

set_option maxRecDepth 10000

deriving instance DecidableEq for Except

namespace Bsc

/-- Byte buffer: each element is one byte (`u8`) as a `Nat`. -/
abbrev Buf := List Nat

/-- Embeds `types.rs::ErrorKind` (error payloads dropped). -/
inductive ErrorKind
  | integer
  | float
  | notUTF8
  | notMatched
  | eof
deriving DecidableEq, Repr

/-- Embeds `types.rs::R<'a, O>`: either `(remaining, value)` or
`(remainder-at-failure, kind)`. -/
abbrev R (α : Type) := Except (Buf × ErrorKind) (Buf × α)

/-- ASCII bytes of a Lean string literal (each char code point, which for
the ASCII strings used here is the byte value). -/
def asciiOf (s : String) : Buf := s.data.map Char.toNat

/-- Decimal ASCII rendering of a natural number, as produced by Rust
`format!("{}", n)` for the unsigned integer types. -/
def natBytes (n : Nat) : Buf := (Nat.toDigits 10 n).map Char.toNat

/-- Embeds `parser.rs::char`: the Rust function compares `buf[0] == c as u8`
and returns the matched byte.  The `char` argument is embedded as its byte
value (all call sites pass ASCII). -/
def char (buf : Buf) (c : Nat) : R Nat :=
  match buf with
  | [] => .error ([], .eof)
  | b :: bs => if b = c then .ok (bs, b) else .error (b :: bs, .notMatched)

/-- Embeds `parser.rs::crlf`: `char '\r'` then `char '\n'`, errors
propagated by `?`. -/
def crlf (buf : Buf) : R Unit :=
  match char buf 13 with
  | .error e => .error e
  | .ok (i, _) =>
    match char i 10 with
    | .error e => .error e
    | .ok (i, _) => .ok (i, ())

/-- Embeds `parser.rs::space`. -/
def space (buf : Buf) : R Unit :=
  match char buf 32 with
  | .error e => .error e
  | .ok (i, _) => .ok (i, ())

/-- Embeds `parser.rs::lf`. -/
def lf (buf : Buf) : R Unit :=
  match char buf 10 with
  | .error e => .error e
  | .ok (i, _) => .ok (i, ())

/-- Embeds `parser.rs::chars`: literal substring match.  `eof!` fires only
on an empty buffer; a too-short buffer is `NotMatched`. -/
def chars (buf : Buf) (value : Buf) : R Buf :=
  if buf.isEmpty then .error (buf, .eof)
  else if buf.length < value.length then .error (buf, .notMatched)
  else if value = buf.take value.length then .ok (buf.drop value.length, buf.take value.length)
  else .error (buf, .notMatched)

/-- Embeds `u8::is_ascii_digit`. -/
def is_ascii_digit (b : Nat) : Bool := 48 ≤ b && b ≤ 57

/-- Embeds `u8::is_ascii_alphabetic`. -/
def is_ascii_alphabetic (b : Nat) : Bool :=
  (65 ≤ b && b ≤ 90) || (97 ≤ b && b ≤ 122)

/-- Embeds `u8::is_ascii_alphanumeric`. -/
def is_ascii_alphanumeric (b : Nat) : Bool :=
  is_ascii_digit b || is_ascii_alphabetic b

/-- Embeds `u8::is_ascii_whitespace`: space, tab, newline, form feed,
carriage return. -/
def is_ascii_whitespace (b : Nat) : Bool :=
  b = 32 || b = 9 || b = 10 || b = 12 || b = 13

/-- Embeds `parser.rs::take_while`: longest prefix satisfying `func`;
`NotMatched` when that prefix is empty, `EOF` on an empty buffer. -/
def take_while (buf : Buf) (func : Nat → Bool) : R Buf :=
  if buf.isEmpty then .error (buf, .eof)
  else if (buf.takeWhile func).isEmpty then .error (buf, .notMatched)
  else .ok (buf.dropWhile func, buf.takeWhile func)

/-- Embeds `parser.rs::take_until`: longest prefix on which `func` is
false. -/
def take_until (buf : Buf) (func : Nat → Bool) : R Buf :=
  if buf.isEmpty then .error (buf, .eof)
  else if (buf.takeWhile (fun b => ! func b)).isEmpty then .error (buf, .notMatched)
  else .ok (buf.dropWhile (fun b => ! func b), buf.takeWhile (fun b => ! func b))

/-- Embeds `parser.rs::take`: fixed-length slice capture.  A buffer shorter
than `len` (but non-empty) yields `NotMatched`; only the empty buffer
yields `EOF`. -/
def take (buf : Buf) (len : Nat) : R Buf :=
  if buf.isEmpty then .error (buf, .eof)
  else if len ≤ buf.length then .ok (buf.drop len, buf.take len)
  else .error (buf, .notMatched)

/-- Decimal value of an ASCII digit run, as computed by
`str::parse::<u64>` on a digits-only string. -/
def digitsVal (ds : Buf) : Nat := ds.foldl (fun acc b => acc * 10 + (b - 48)) 0

/-- Embeds `parser.rs::u64`: scans a maximal ASCII digit run, then parses
it.  `str::parse::<u64>` on a digits-only string fails exactly when the
value exceeds `u64::MAX`, in which case the Rust code returns
`ErrorKind::Integer` with the whole input as remainder. -/
def u64 (buf : Buf) : R Nat :=
  if buf.isEmpty then .error (buf, .eof)
  else if (buf.takeWhile is_ascii_digit).isEmpty then .error (buf, .notMatched)
  else if digitsVal (buf.takeWhile is_ascii_digit) < 2 ^ 64 then
    .ok (buf.dropWhile is_ascii_digit, digitsVal (buf.takeWhile is_ascii_digit))
  else .error (buf, .integer)

/-- Embeds `parser.rs::string`: alphanumeric run.  The Rust code converts
the captured bytes with `from_utf8_unchecked` (no validation); the
embedding keeps the raw bytes. -/
def string (buf : Buf) : R Buf :=
  match take_while buf is_ascii_alphanumeric with
  | .error e => .error e
  | .ok (i, s) => .ok (i, s)

/-- Embeds `parser.rs::bool`: literal `true` / `false`, else `NotMatched`
with the original buffer. -/
def bool (buf : Buf) : R Bool :=
  match chars buf (asciiOf "true") with
  | .ok (i, _) => .ok (i, true)
  | .error _ =>
    match chars buf (asciiOf "false") with
    | .ok (i, _) => .ok (i, false)
    | .error _ => .error (buf, .notMatched)

/-- Embeds `types.rs::Scalar`.  The Rust `Scalar::Float(f64)` is built by
parsing the string `"{head}.{tail}"`, which for two digit runs always
succeeds; the embedding records the pair `(head, tail)` of digit-run
values instead of an `f64`. -/
inductive Scalar
  | string (s : Buf)
  | integer (n : Nat)
  | float (intPart fracPart : Nat)
  | bool (b : Bool)
deriving DecidableEq, Repr

/-- Embeds `parser.rs::number`: an integer, or a float when a dot and a
second digit run follow.  The Rust float reparse (`val.parse::<f64>()` on
`"{head}.{tail}"`) cannot fail for that digit shape, so the
`ErrorKind::Float` branch is unreachable and the embedding returns the
float directly. -/
def number (buf : Buf) : R Scalar :=
  if buf.isEmpty then .error (buf, .eof)
  else
    match u64 buf with
    | .error e => .error e
    | .ok (i, head) =>
      match char i 46 with
      | .ok (i, _) =>
        (match u64 i with
         | .error e => .error e
         | .ok (i, tail) => .ok (i, .float head tail))
      | .error _ => .ok (i, .integer head)

/-- Embeds `parser.rs::scalar`: ordered alternation bool / number / string
via `if let Ok(..)`, which falls through on ANY error. -/
def scalar (i : Buf) : R Scalar :=
  match bool i with
  | .ok (i, val) => .ok (i, .bool val)
  | .error _ =>
    match number i with
    | .ok (i, val) => .ok (i, val)
    | .error _ =>
      match string i with
      | .ok (i, val) => .ok (i, .string val)
      | .error _ => .error (i, .notMatched)

/-- Embeds `protocol.rs::Msg`.  `Msg::Using(String)` is built by the Rust
code from bytes via `from_utf8_unchecked` (no validation), so names and
payloads are kept as raw byte lists. -/
inductive Msg
  | inserted (id : Nat)
  | buried (id : Option Nat)
  | using (name : Buf)
  | reserved (id : Nat) (data : Buf)
  | watching (count : Nat)
  | found (id : Nat) (data : Buf)
  | kicked (count : Option Nat)
  | ok (data : Buf)
  | paused
  | deleted
  | expectedCrlf
  | jobTooBig
  | draining
  | outOfMemory
  | internalError
  | badFormat
  | unknownCommand
  | deadlineSoon
  | timedOut
  | notFound
  | released
  | touched
  | notIgnored
deriving DecidableEq, Repr

/-- Embeds `protocol.rs::Cmd`.  Numeric fields are `u32`/`u64` in the
source; only their decimal rendering matters to the encoder, so they are
embedded as `Nat`.  Tube names (`&str`) and payloads (`&[u8]`) are byte
lists. -/
inductive Cmd
  | put (pri delay ttr : Nat) (payload : Buf)
  | use_ (tube : Buf)
  | reserve
  | reserveJob (id : Nat)
  | reserveTimeout (secs : Nat)
  | delete (id : Nat)
  | release (id pri delay : Nat)
  | bury (id pri : Nat)
  | touch (id : Nat)
  | watch (tube : Buf)
  | ignore (tube : Buf)
  | peek (id : Nat)
  | peekReady
  | peekDelayed
  | peekBuried
  | kick (bound : Nat)
  | kickJob (id : Nat)
  | statsJob (id : Nat)
  | statsTube (tube : Buf)
  | stats
  | listTubes
  | listTubeUsed
  | listTubesWatched
  | quit
  | pauseTube (tube : Buf) (delay : Nat)
deriving DecidableEq, Repr

/-- The `CRLF` static of `protocol.rs`. -/
def CRLF : Buf := [13, 10]

/-- Embeds `impl From<Cmd<'_>> for Vec<u8>` of `protocol.rs`: each variant
maps to its `format!` line; `Put` appends the raw payload and a trailing
CRLF after the header line. -/
def encodeCmd : Cmd → Buf
  | .put pri delay ttr payload =>
    asciiOf "put " ++ natBytes pri ++ [32] ++ natBytes delay ++ [32] ++
      natBytes ttr ++ [32] ++ natBytes payload.length ++ CRLF ++ payload ++ CRLF
  | .use_ tube => asciiOf "use " ++ tube ++ CRLF
  | .reserve => asciiOf "reserve\r\n"
  | .reserveJob id => asciiOf "reserve-job " ++ natBytes id ++ CRLF
  | .reserveTimeout secs => asciiOf "reserve-with-timeout " ++ natBytes secs ++ CRLF
  | .delete id => asciiOf "delete " ++ natBytes id ++ CRLF
  | .release id pri delay =>
    asciiOf "release " ++ natBytes id ++ [32] ++ natBytes pri ++ [32] ++ natBytes delay ++ CRLF
  | .bury id pri => asciiOf "bury " ++ natBytes id ++ [32] ++ natBytes pri ++ CRLF
  | .touch id => asciiOf "touch " ++ natBytes id ++ CRLF
  | .watch tube => asciiOf "watch " ++ tube ++ CRLF
  | .ignore tube => asciiOf "ignore " ++ tube ++ CRLF
  | .peek id => asciiOf "peek " ++ natBytes id ++ CRLF
  | .peekReady => asciiOf "peek-ready\r\n"
  | .peekDelayed => asciiOf "peek-delayed\r\n"
  | .peekBuried => asciiOf "peek-buried\r\n"
  | .kick bound => asciiOf "kick " ++ natBytes bound ++ CRLF
  | .kickJob id => asciiOf "kick-job " ++ natBytes id ++ CRLF
  | .statsJob id => asciiOf "stats-job " ++ natBytes id ++ CRLF
  | .statsTube tube => asciiOf "stats-tube " ++ tube ++ CRLF
  | .stats => asciiOf "stats\r\n"
  | .listTubes => asciiOf "list-tubes\r\n"
  | .listTubeUsed => asciiOf "list-tube-used\r\n"
  | .listTubesWatched => asciiOf "list-tubes-watched\r\n"
  | .quit => asciiOf "quit\r\n"
  | .pauseTube tube delay => asciiOf "pause-tube " ++ tube ++ [32] ++ natBytes delay ++ CRLF

/-- Embeds `protocol.rs::name`: rejects a leading hyphen, then captures a
run of non-whitespace bytes.  The Rust code converts the captured bytes
with `from_utf8_unchecked` — no UTF-8 validation — so the embedding keeps
the raw bytes. -/
def name (buf : Buf) : R Buf :=
  match buf with
  | [] => .error ([], .eof)
  | b :: bs =>
    if b = 45 then .error (b :: bs, .notMatched)
    else take_until (b :: bs) is_ascii_whitespace

/-- Embeds `protocol.rs::inserted`. -/
def inserted (buf : Buf) : R Msg :=
  match chars buf (asciiOf "INSERTED") with
  | .error e => .error e
  | .ok (i, _) =>
  match space i with
  | .error e => .error e
  | .ok (i, _) =>
  match u64 i with
  | .error e => .error e
  | .ok (i, id) =>
  match crlf i with
  | .error e => .error e
  | .ok (i, _) => .ok (i, .inserted id)

/-- Embeds `protocol.rs::using` (named `using_` because `using` is a Lean keyword). -/
def using_ (buf : Buf) : R Msg :=
  match chars buf (asciiOf "USING") with
  | .error e => .error e
  | .ok (i, _) =>
  match space i with
  | .error e => .error e
  | .ok (i, _) =>
  match name i with
  | .error e => .error e
  | .ok (i, n) =>
  match crlf i with
  | .error e => .error e
  | .ok (i, _) => .ok (i, .using n)

/-- Embeds `protocol.rs::reserved`. -/
def reserved (buf : Buf) : R Msg :=
  match chars buf (asciiOf "RESERVED") with
  | .error e => .error e
  | .ok (i, _) =>
  match space i with
  | .error e => .error e
  | .ok (i, _) =>
  match u64 i with
  | .error e => .error e
  | .ok (i, id) =>
  match space i with
  | .error e => .error e
  | .ok (i, _) =>
  match u64 i with
  | .error e => .error e
  | .ok (i, len) =>
  match crlf i with
  | .error e => .error e
  | .ok (i, _) =>
  match take i len with
  | .error e => .error e
  | .ok (i, data) =>
  match crlf i with
  | .error e => .error e
  | .ok (i, _) => .ok (i, .reserved id data)

/-- A keyword-then-CRLF recognizer; the common shape of
`out_of_memory`, `internal_error`, `bad_format`, `unknown_command`,
`expected_crlf`, `job_too_big`, `draining`, `deadline_soon`, `timed_out`,
`not_found`, `deleted`, `released`, `touched`, `not_ignored`, `paused` in
`protocol.rs` (each is literally `chars` keyword then `crlf`). -/
def kwMsg (kw : String) (m : Msg) (buf : Buf) : R Msg :=
  match chars buf (asciiOf kw) with
  | .error e => .error e
  | .ok (i, _) =>
  match crlf i with
  | .error e => .error e
  | .ok (i, _) => .ok (i, m)

/-- Embeds `protocol.rs::out_of_memory`. -/
def out_of_memory (buf : Buf) : R Msg := kwMsg "OUT_OF_MEMORY" .outOfMemory buf

/-- Embeds `protocol.rs::internal_error`. -/
def internal_error (buf : Buf) : R Msg := kwMsg "INTERNAL_ERROR" .internalError buf

/-- Embeds `protocol.rs::bad_format`. -/
def bad_format (buf : Buf) : R Msg := kwMsg "BAD_FORMAT" .badFormat buf

/-- Embeds `protocol.rs::unknown_command`. -/
def unknown_command (buf : Buf) : R Msg := kwMsg "UNKNOWN_COMMAND" .unknownCommand buf

/-- Embeds `protocol.rs::expected_crlf`. -/
def expected_crlf (buf : Buf) : R Msg := kwMsg "EXPECTED_CRLF" .expectedCrlf buf

/-- Embeds `protocol.rs::job_too_big`. -/
def job_too_big (buf : Buf) : R Msg := kwMsg "JOB_TOO_BIG" .jobTooBig buf

/-- Embeds `protocol.rs::draining`. -/
def draining (buf : Buf) : R Msg := kwMsg "DRAINING" .draining buf

/-- Embeds `protocol.rs::deadline_soon`. -/
def deadline_soon (buf : Buf) : R Msg := kwMsg "DEADLINE_SOON" .deadlineSoon buf

/-- Embeds `protocol.rs::timed_out`. -/
def timed_out (buf : Buf) : R Msg := kwMsg "TIMED_OUT" .timedOut buf

/-- Embeds `protocol.rs::not_found`. -/
def not_found (buf : Buf) : R Msg := kwMsg "NOT_FOUND" .notFound buf

/-- Embeds `protocol.rs::deleted`. -/
def deleted (buf : Buf) : R Msg := kwMsg "DELETED" .deleted buf

/-- Embeds `protocol.rs::released`. -/
def released (buf : Buf) : R Msg := kwMsg "RELEASED" .released buf

/-- Embeds `protocol.rs::touched`. -/
def touched (buf : Buf) : R Msg := kwMsg "TOUCHED" .touched buf

/-- Embeds `protocol.rs::not_ignored`. -/
def not_ignored (buf : Buf) : R Msg := kwMsg "NOT_IGNORED" .notIgnored buf

/-- Embeds `protocol.rs::paused`. -/
def paused (buf : Buf) : R Msg := kwMsg "PAUSED" .paused buf

/-- Embeds `protocol.rs::buried`: keyword, then an optional
space-and-count branch tried first (on its failure the bare-CRLF branch
resumes from the position right after the keyword). -/
def buried (buf : Buf) : R Msg :=
  match chars buf (asciiOf "BURIED") with
  | .error e => .error e
  | .ok (i, _) =>
  match space i with
  | .ok (j, _) =>
    (match u64 j with
     | .error e => .error e
     | .ok (j, id) =>
     match crlf j with
     | .error e => .error e
     | .ok (j, _) => .ok (j, .buried (some id)))
  | .error _ =>
    match crlf i with
    | .error e => .error e
    | .ok (i, _) => .ok (i, .buried none)

/-- Embeds `protocol.rs::watching` EXACTLY as written in the source: the
recognizer matches the literal keyword `"TOUCHED"` (a copy-paste of
`touched`), not `"WATCHING"`. -/
def watching (buf : Buf) : R Msg :=
  match chars buf (asciiOf "TOUCHED") with
  | .error e => .error e
  | .ok (i, _) =>
  match space i with
  | .error e => .error e
  | .ok (i, _) =>
  match u64 i with
  | .error e => .error e
  | .ok (i, count) =>
  match crlf i with
  | .error e => .error e
  | .ok (i, _) => .ok (i, .watching count)

/-- Embeds `protocol.rs::found` EXACTLY as written: after the keyword
`"FOUND"` the source calls `u64` directly, with no `space` in between. -/
def found (buf : Buf) : R Msg :=
  match chars buf (asciiOf "FOUND") with
  | .error e => .error e
  | .ok (i, _) =>
  match u64 i with
  | .error e => .error e
  | .ok (i, id) =>
  match space i with
  | .error e => .error e
  | .ok (i, _) =>
  match u64 i with
  | .error e => .error e
  | .ok (i, len) =>
  match crlf i with
  | .error e => .error e
  | .ok (i, _) =>
  match take i len with
  | .error e => .error e
  | .ok (i, data) =>
  match crlf i with
  | .error e => .error e
  | .ok (i, _) => .ok (i, .found id data)

/-- Embeds `protocol.rs::kicked`: optional space-and-count, like
`buried`. -/
def kicked (buf : Buf) : R Msg :=
  match chars buf (asciiOf "KICKED") with
  | .error e => .error e
  | .ok (i, _) =>
  match space i with
  | .ok (j, _) =>
    (match u64 j with
     | .error e => .error e
     | .ok (j, count) =>
     match crlf j with
     | .error e => .error e
     | .ok (j, _) => .ok (j, .kicked (some count)))
  | .error _ =>
    match crlf i with
    | .error e => .error e
    | .ok (i, _) => .ok (i, .kicked none)

/-- Embeds `protocol.rs::ok`: keyword `"OK"`, space, byte count, CRLF,
payload of exactly that count, CRLF. -/
def ok (buf : Buf) : R Msg :=
  match chars buf (asciiOf "OK") with
  | .error e => .error e
  | .ok (i, _) =>
  match space i with
  | .error e => .error e
  | .ok (i, _) =>
  match u64 i with
  | .error e => .error e
  | .ok (i, len) =>
  match crlf i with
  | .error e => .error e
  | .ok (i, _) =>
  match take i len with
  | .error e => .error e
  | .ok (i, data) =>
  match crlf i with
  | .error e => .error e
  | .ok (i, _) => .ok (i, .ok data)

/-- Embeds `protocol.rs::atomic_parse`: tries each recognizer in the
source's order (`try_parse!` ignores the individual failure), returning
`NotMatched` with the whole buffer when none matches. -/
def atomic_parse (buf : Buf) : R Msg :=
  match inserted buf with
  | .ok r => .ok r
  | .error _ =>
  match using_ buf with
  | .ok r => .ok r
  | .error _ =>
  match reserved buf with
  | .ok r => .ok r
  | .error _ =>
  match out_of_memory buf with
  | .ok r => .ok r
  | .error _ =>
  match internal_error buf with
  | .ok r => .ok r
  | .error _ =>
  match bad_format buf with
  | .ok r => .ok r
  | .error _ =>
  match unknown_command buf with
  | .ok r => .ok r
  | .error _ =>
  match expected_crlf buf with
  | .ok r => .ok r
  | .error _ =>
  match job_too_big buf with
  | .ok r => .ok r
  | .error _ =>
  match draining buf with
  | .ok r => .ok r
  | .error _ =>
  match deadline_soon buf with
  | .ok r => .ok r
  | .error _ =>
  match timed_out buf with
  | .ok r => .ok r
  | .error _ =>
  match not_found buf with
  | .ok r => .ok r
  | .error _ =>
  match deleted buf with
  | .ok r => .ok r
  | .error _ =>
  match released buf with
  | .ok r => .ok r
  | .error _ =>
  match buried buf with
  | .ok r => .ok r
  | .error _ =>
  match touched buf with
  | .ok r => .ok r
  | .error _ =>
  match watching buf with
  | .ok r => .ok r
  | .error _ =>
  match not_ignored buf with
  | .ok r => .ok r
  | .error _ =>
  match found buf with
  | .ok r => .ok r
  | .error _ =>
  match kicked buf with
  | .ok r => .ok r
  | .error _ =>
  match ok buf with
  | .ok r => .ok r
  | .error _ =>
  match paused buf with
  | .ok r => .ok r
  | .error _ =>
  .error (buf, .notMatched)

/-- Loop body of `protocol.rs::parse`, which tries the same recognizers
in the same order as `atomic_parse`; on success the message is pushed and
the loop continues on the remainder, on total failure the loop stops with
`NotMatched` and the current buffer, leaving the already-pushed messages
in the caller's vector.  The fuel argument only bounds the iteration
count for Lean's termination checker: every successful recognizer starts
by consuming its non-empty keyword, so with initial fuel
= buffer length the zero-fuel branch is unreachable. -/
def parseAux : Nat → Buf → List Msg → List Msg × R Unit
  | _, [], msgs => (msgs, .ok ([], ()))
  | fuel + 1, b :: bs, msgs =>
    (match atomic_parse (b :: bs) with
     | .ok (i, m) => parseAux fuel i (msgs ++ [m])
     | .error _ => (msgs, .error (b :: bs, .notMatched)))
  | 0, b :: bs, msgs => (msgs, .error (b :: bs, .notMatched))

/-- Embeds `protocol.rs::parse`: `parse(buf, &mut msgs)` drains complete
messages from the front of `buf` into `msgs`; the returned pair is the
final content of `msgs` together with the Rust return value. -/
def parse (buf : Buf) (msgs : List Msg) : List Msg × R Unit :=
  parseAux buf.length buf msgs

/-- Mirrors `HashMap::insert` on an association-list model of
`types.rs::YAMLMap`: an existing binding of the key has its value
replaced, a new key is appended.  (The Rust `HashMap` is unordered; the
theorems about it below state only lookup and size facts, plus the full
list for concrete inputs, where insertion order is the list order.) -/
def mapInsert (m : List (Buf × Scalar)) (k : Buf) (v : Scalar) : List (Buf × Scalar) :=
  if m.any (fun p => p.1 = k) then m.map (fun p => if p.1 = k then (k, v) else p)
  else m ++ [(k, v)]

/-- Embeds `yaml.rs::start`: the literal `---` header then a line feed. -/
def start (i : Buf) : R Unit :=
  match chars i (asciiOf "---") with
  | .error e => .error e
  | .ok (i, _) =>
  match lf i with
  | .error e => .error e
  | .ok (i, _) => .ok (i, ())

/-- Embeds `yaml.rs::map_entry`: `key: value` where the key is an
alphanumeric run and the value a scalar. -/
def map_entry (i : Buf) : R (Buf × Scalar) :=
  match string i with
  | .error e => .error e
  | .ok (i, key) =>
  match chars i (asciiOf ": ") with
  | .error e => .error e
  | .ok (i, _) =>
  match scalar i with
  | .error e => .error e
  | .ok (i, value) => .ok (i, (key, value))

/-- Loop of `yaml.rs::yaml_map`: one `map_entry` plus line feed per
iteration until the buffer is empty, inserting into the map.  As in
`parseAux` the fuel only bounds iteration for the termination checker
(each entry consumes at least its non-empty key). -/
def yaml_mapAux : Nat → Buf → List (Buf × Scalar) → R (List (Buf × Scalar))
  | _, [], m => .ok ([], m)
  | fuel + 1, b :: bs, m =>
    (match map_entry (b :: bs) with
     | .error e => .error e
     | .ok (i, kv) =>
     match lf i with
     | .error e => .error e
     | .ok (i, _) => yaml_mapAux fuel i (mapInsert m kv.1 kv.2))
  | 0, b :: bs, _ => .error (b :: bs, .notMatched)

/-- Embeds `yaml.rs::yaml_map`: `---` header then the entry loop. -/
def yaml_map (buf : Buf) : R (List (Buf × Scalar)) :=
  match start buf with
  | .error e => .error e
  | .ok (i, _) => yaml_mapAux i.length i []

/-- UTF-8 validity of a byte sequence (RFC 3629: no overlongs, no
surrogates, at most U+10FFFF).  The engine never checks this — the Rust
code uses `from_utf8_unchecked` — so this predicate exists only to state
what the decoder would need to reject. -/
def isValidUtf8 : Buf → Bool
  | [] => true
  | b :: bs =>
    if b < 128 then isValidUtf8 bs
    else if 194 ≤ b && b ≤ 223 then
      match bs with
      | c :: cs => if 128 ≤ c && c ≤ 191 then isValidUtf8 cs else false
      | [] => false
    else if b == 224 then
      match bs with
      | c :: d :: cs =>
        if (160 ≤ c && c ≤ 191) && (128 ≤ d && d ≤ 191) then isValidUtf8 cs else false
      | _ => false
    else if (225 ≤ b && b ≤ 236) || b == 238 || b == 239 then
      match bs with
      | c :: d :: cs =>
        if (128 ≤ c && c ≤ 191) && (128 ≤ d && d ≤ 191) then isValidUtf8 cs else false
      | _ => false
    else if b == 237 then
      match bs with
      | c :: d :: cs =>
        if (128 ≤ c && c ≤ 159) && (128 ≤ d && d ≤ 191) then isValidUtf8 cs else false
      | _ => false
    else if b == 240 then
      match bs with
      | c :: d :: e :: cs =>
        if (144 ≤ c && c ≤ 191) && (128 ≤ d && d ≤ 191) && (128 ≤ e && e ≤ 191) then
          isValidUtf8 cs
        else false
      | _ => false
    else if 241 ≤ b && b ≤ 243 then
      match bs with
      | c :: d :: e :: cs =>
        if (128 ≤ c && c ≤ 191) && (128 ≤ d && d ≤ 191) && (128 ≤ e && e ≤ 191) then
          isValidUtf8 cs
        else false
      | _ => false
    else if b == 244 then
      match bs with
      | c :: d :: e :: cs =>
        if (128 ≤ c && c ≤ 143) && (128 ≤ d && d ≤ 191) && (128 ≤ e && e ≤ 191) then
          isValidUtf8 cs
        else false
      | _ => false
    else false

end Bsc

section BscExamples
open Bsc

example : Bsc.char (asciiOf "hello") 104 = .ok (asciiOf "ello", 104) := by decide
example : Bsc.crlf (asciiOf "\r\nbar") = .ok (asciiOf "bar", ()) := by decide
example : Bsc.crlf (asciiOf "foo\r\n") = .error (asciiOf "foo\r\n", .notMatched) := by decide
example : Bsc.chars (asciiOf "foobar") (asciiOf "foo") = .ok (asciiOf "bar", asciiOf "foo") := by decide
example : Bsc.u64 (asciiOf "1234") = .ok ([], 1234) := by decide
example : Bsc.u64 (asciiOf "foo") = .error (asciiOf "foo", .notMatched) := by decide
example : Bsc.take (asciiOf "Hello World") 5 = .ok (asciiOf " World", asciiOf "Hello") := by decide
example : Bsc.scalar (asciiOf "3.14\n") = .ok (asciiOf "\n", .float 3 14) := by decide
example : Bsc.scalar (asciiOf "true\n") = .ok (asciiOf "\n", .bool true) := by decide
example : Bsc.inserted (asciiOf "INSERTED 42\r\n") = .ok ([], .inserted 42) := by decide
example : Bsc.reserved (asciiOf "RESERVED 42 6\r\n123456\r\n") =
    .ok ([], .reserved 42 (asciiOf "123456")) := by decide
example : Bsc.kicked (asciiOf "KICKED\r\n") = .ok ([], .kicked none) := by decide
example : Bsc.kicked (asciiOf "KICKED 42\r\n") = .ok ([], .kicked (some 42)) := by decide
example : Bsc.using_ (asciiOf "USING foo\r\n") = .ok ([], .using (asciiOf "foo")) := by decide
example : Bsc.atomic_parse (asciiOf "DELETED\r\n") = .ok ([], .deleted) := by decide
example : Bsc.parse (asciiOf "INSERTED 1\r\nDELETED\r\n") [] =
    ([.inserted 1, .deleted], .ok ([], ())) := by decide
example : Bsc.encodeCmd (.put 1 2 3 (asciiOf "123456")) = asciiOf "put 1 2 3 6\r\n123456\r\n" := by
  decide
example : Bsc.yaml_map (asciiOf "---\nint: 42\n") =
    .ok ([], [(asciiOf "int", .integer 42)]) := by decide
example : Bsc.isValidUtf8 [255] = false := by decide
example : Bsc.isValidUtf8 [104, 195, 169, 108, 108, 111] = true := by decide

end BscExamples

namespace Bsc

/-- A literal match consumes exactly its pattern from the front of the
buffer. -/
theorem chars_exact_match (v rest : Buf) (hv : v ≠ []) : chars (v ++ rest) v = .ok (rest, v) := by
  have h1 : (v ++ rest).isEmpty = false := by cases v <;> simp_all
  have h2 : ¬((v ++ rest).length < v.length) := by simp [List.length_append]
  simp [chars, h1, h2, List.take_left, List.drop_left]

/-- `takeWhile`/`dropWhile` stop exactly at the first byte failing the
predicate. -/
theorem takeWhile_run_stop {p : Nat → Bool} :
    ∀ (xs : Buf) (y : Nat) (ys : Buf), (∀ x ∈ xs, p x = true) → p y = false →
      List.takeWhile p (xs ++ y :: ys) = xs ∧ List.dropWhile p (xs ++ y :: ys) = y :: ys := by
  intro xs
  induction xs with
  | nil =>
    intro y ys _ hy
    simp [List.takeWhile_cons, List.dropWhile_cons, hy]
  | cons a as ih =>
    intro y ys hall hy
    have ha : p a = true := hall a (by simp)
    have h2 := ih y ys (fun x hx => hall x (by simp [hx])) hy
    simp [List.takeWhile_cons, List.dropWhile_cons, ha, h2.1, h2.2]

/-- A failing `char` leaves the whole input as the error remainder. -/
theorem char_error_eq {buf i : Buf} {c k} (h : char buf c = .error (i, k)) : i = buf := by
  cases buf with
  | nil => simp [char] at h; simp [h.1]
  | cons b bs =>
    by_cases hb : b = c
    · simp [char, hb] at h
    · simp [char, hb] at h; simp [h.1]

/-- A failing `chars` leaves the whole input as the error remainder. -/
theorem chars_error_eq {buf v i : Buf} {k} (h : chars buf v = .error (i, k)) : i = buf := by
  unfold chars at h
  split at h
  · simp at h; simp [h.1]
  · split at h
    · simp at h; simp [h.1]
    · split at h
      · simp at h
      · simp at h; simp [h.1]

/-- A failing `take` leaves the whole input as the error remainder. -/
theorem take_error_eq {buf i : Buf} {n k} (h : take buf n = .error (i, k)) : i = buf := by
  unfold take at h
  split at h
  · simp at h; simp [h.1]
  · split at h
    · simp at h
    · simp at h; simp [h.1]

/-- A failing `take_while` leaves the whole input as the error
remainder. -/
theorem take_while_error_eq {buf i : Buf} {f k} (h : take_while buf f = .error (i, k)) :
    i = buf := by
  unfold take_while at h
  split at h
  · simp at h; simp [h.1]
  · split at h
    · simp at h; simp [h.1]
    · simp at h

/-- A failing `take_until` leaves the whole input as the error
remainder. -/
theorem take_until_error_eq {buf i : Buf} {f k} (h : take_until buf f = .error (i, k)) :
    i = buf := by
  unfold take_until at h
  split at h
  · simp at h; simp [h.1]
  · split at h
    · simp at h; simp [h.1]
    · simp at h

/-- A failing `u64` leaves the whole input as the error remainder. -/
theorem u64_error_eq {buf i : Buf} {k} (h : u64 buf = .error (i, k)) : i = buf := by
  unfold u64 at h
  split at h
  · simp at h; simp [h.1]
  · split at h
    · simp at h; simp [h.1]
    · split at h
      · simp at h
      · simp at h; simp [h.1]

/-- A failing `bool` leaves the whole input as the error remainder. -/
theorem bool_error_eq {buf i : Buf} {k} (h : bool buf = .error (i, k)) : i = buf := by
  unfold bool at h
  split at h
  · simp at h
  · split at h
    · simp at h
    · simp at h; simp [h.1]

/-- A literal match against a pattern starting with a different byte fails
with the whole input, whatever the lengths. -/
theorem chars_cons_ne {b v0 : Nat} (bs vs : Buf) (h : b ≠ v0) :
    chars (b :: bs) (v0 :: vs) = .error (b :: bs, .notMatched) := by
  unfold chars
  split
  · next hemp => simp at hemp
  · split
    · rfl
    · split
      · next heq =>
        exfalso
        rw [List.length_cons, List.take_succ_cons] at heq
        injection heq with h1 _
        exact h h1.symm
      · rfl

end Bsc

namespace Bsc

/-- C1: evaluation of the decoder at the claim's inputs.  The
incomplete-payload prefix `"RESERVED 42 6\r\n1234"` does NOT fail with an
exhaustion-classified error: inside the `reserved` recognizer, `take`
returns `NotMatched` with remainder `"1234"` (the `EOF` kind fires only on
an empty buffer), and the one-shot decoder `atomic_parse` then fails with
`NotMatched` carrying the full input — exactly the same `ErrorKind` the
never-a-reply input `"GARBAGE\r\n"` produces, so the two failure classes
are not distinguishable in the returned `ErrorKind`. -/
theorem c1_incomplete_payload_is_notMatched :
    reserved (asciiOf "RESERVED 42 6\r\n1234") =
      .error (asciiOf "1234", .notMatched) ∧
    atomic_parse (asciiOf "RESERVED 42 6\r\n1234") =
      .error (asciiOf "RESERVED 42 6\r\n1234", .notMatched) ∧
    atomic_parse (asciiOf "GARBAGE\r\n") =
      .error (asciiOf "GARBAGE\r\n", .notMatched) := by
  exact ⟨by decide, by decide, by decide⟩

/-- C2: evaluation of the two defective recognizers at the claim's
inputs.  The watch-count recognizer does not accept
`"WATCHING <count>\r\n"`: it matches the literal `"TOUCHED"` (copy-paste
of the `touched` recognizer), so it rejects `"WATCHING 1\r\n"` (as does
the whole grammar) and instead accepts `"TOUCHED 1\r\n"`.  The `found`
recognizer omits the space between the keyword and the id, so it rejects
the documented `"FOUND 42 3\r\n123\r\n"` and instead accepts
`"FOUND42 3\r\n123\r\n"`. -/
theorem c2_watching_found_keyword_defects :
    watching (asciiOf "WATCHING 1\r\n") =
      .error (asciiOf "WATCHING 1\r\n", .notMatched) ∧
    watching (asciiOf "TOUCHED 1\r\n") = .ok ([], .watching 1) ∧
    atomic_parse (asciiOf "WATCHING 1\r\n") =
      .error (asciiOf "WATCHING 1\r\n", .notMatched) ∧
    atomic_parse (asciiOf "TOUCHED 1\r\n") = .ok ([], .watching 1) ∧
    found (asciiOf "FOUND 42 3\r\n123\r\n") =
      .error (asciiOf " 42 3\r\n123\r\n", .notMatched) ∧
    found (asciiOf "FOUND42 3\r\n123\r\n") = .ok ([], .found 42 (asciiOf "123")) := by
  exact ⟨by decide, by decide, by decide, by decide, by decide, by decide⟩

/-- C3 counterexample: draining
`"RESERVED 42 3\r\n123\r\nUSING Hello\r\n" ++ "USI"` stops with the
remainder `"USI"` classified `NotMatched`, not with the exhaustion
(`EOF`) classification the claim asserts. -/
theorem c3_cex_trailing_partial_is_notMatched :
    (parse (asciiOf "RESERVED 42 3\r\n123\r\nUSING Hello\r\nUSI") []).2 ≠
      .error (asciiOf "USI", .eof) ∧
    (parse (asciiOf "RESERVED 42 3\r\n123\r\nUSING Hello\r\nUSI") []).2 =
      .error (asciiOf "USI", .notMatched) := by
  exact ⟨by decide, by decide⟩

/-- C3 (amended): draining `"RESERVED 42 3\r\n123\r\nUSING Hello\r\n"`
yields exactly the two messages reserved(42, "123") then using("Hello")
in stream order with empty remainder and success; the same buffer with
`"USI"` appended drains the same two messages in the same order and
reports `"USI"` as the remainder — classified `NotMatched` (mismatch),
since the engine classifies a too-short non-empty buffer as `NotMatched`,
not as exhaustion. -/
theorem c3_drain_two_messages :
    parse (asciiOf "RESERVED 42 3\r\n123\r\nUSING Hello\r\n") [] =
      ([.reserved 42 (asciiOf "123"), .using (asciiOf "Hello")], .ok ([], ())) ∧
    parse (asciiOf "RESERVED 42 3\r\n123\r\nUSING Hello\r\nUSI") [] =
      ([.reserved 42 (asciiOf "123"), .using (asciiOf "Hello")],
        .error (asciiOf "USI", .notMatched)) := by
  exact ⟨by decide, by decide⟩

/-- C4: command encoding is total and pure by construction; the `put`
encoding is the header line with the length field equal to the exact
payload byte count, then the raw payload, then CRLF
(concretely, put 1 2 3 "123456" encodes to exactly
`"put 1 2 3 6\r\n123456\r\n"`); representative variants produce their
exact documented ASCII lines; and every variant's encoding ends in
CRLF. -/
theorem c4_encode_exact_lines :
    (∀ pri delay ttr payload, encodeCmd (.put pri delay ttr payload) =
      asciiOf "put " ++ natBytes pri ++ [32] ++ natBytes delay ++ [32] ++
        natBytes ttr ++ [32] ++ natBytes payload.length ++ CRLF ++ payload ++ CRLF) ∧
    encodeCmd (.put 1 2 3 (asciiOf "123456")) = asciiOf "put 1 2 3 6\r\n123456\r\n" ∧
    encodeCmd (.use_ (asciiOf "tube")) = asciiOf "use tube\r\n" ∧
    encodeCmd (.reserveTimeout 42) = asciiOf "reserve-with-timeout 42\r\n" ∧
    encodeCmd (.release 42 2 3) = asciiOf "release 42 2 3\r\n" ∧
    encodeCmd (.bury 42 2) = asciiOf "bury 42 2\r\n" ∧
    encodeCmd (.pauseTube (asciiOf "tube") 42) = asciiOf "pause-tube tube 42\r\n" ∧
    (∀ c : Cmd, CRLF <:+ encodeCmd c) := by
  refine ⟨fun _ _ _ _ => rfl, by decide, by decide, by decide, by decide, by decide, by decide,
    fun c => ?_⟩
  cases c <;> first
  | exact ⟨_, rfl⟩
  | decide

/-- C8: the five-entry YAML-lite map document decodes to exactly the five
entries with the matching scalar kinds and values (the float `3.14`
represented as integer part 3, fractional digits 14), and a repeated key
overwrites the earlier value, leaving a single binding with the later
value. -/
theorem c8_yaml_map_decode :
    yaml_map (asciiOf "---\ntrue: true\nfalse: false\nint: 42\nfloat: 3.14\nstring: HelloWorld\n") =
      .ok ([], [(asciiOf "true", .bool true), (asciiOf "false", .bool false),
        (asciiOf "int", .integer 42), (asciiOf "float", .float 3 14),
        (asciiOf "string", .string (asciiOf "HelloWorld"))]) ∧
    yaml_map (asciiOf "---\nkey: 1\nkey: 2\n") = .ok ([], [(asciiOf "key", .integer 2)]) := by
  exact ⟨by decide, by decide⟩

end Bsc

namespace Bsc

/-- C5: for a reply announcing a 4-byte payload, the decoder reads exactly
4 bytes as the payload — whatever those bytes are, including embedded CRLF
sequences — and then consumes one final CRLF, for both the `reserved` and
the generic-ok recognizers; the remainder after the final CRLF is handed
back untouched.  In particular the payload is never truncated early at an
embedded CRLF. -/
theorem c5_payload_exact_count (payload rest : Buf) (h : payload.length = 4) :
    reserved (asciiOf "RESERVED 1 4\r\n" ++ payload ++ ([13, 10] ++ rest)) =
      .ok (rest, .reserved 1 payload) ∧
    ok (asciiOf "OK 4\r\n" ++ payload ++ ([13, 10] ++ rest)) =
      .ok (rest, .ok payload) :=
  match payload, h with
  | [_, _, _, _], _ => ⟨rfl, rfl⟩

/-- C5 witness: the payload `"\r\n\r\n"` (declared length 4) decodes as
the full 4-byte payload with the trailing CRLF consumed afterwards. -/
theorem c5_payload_exact_count_witness :
    ([13, 10, 13, 10] : Buf).length = 4 ∧
    reserved (asciiOf "RESERVED 1 4\r\n" ++ [13, 10, 13, 10] ++ ([13, 10] ++ [])) =
      .ok ([], .reserved 1 [13, 10, 13, 10]) ∧
    ok (asciiOf "OK 4\r\n" ++ [13, 10, 13, 10] ++ ([13, 10] ++ [])) =
      .ok ([], .ok [13, 10, 13, 10]) :=
  ⟨by decide, (c5_payload_exact_count [13, 10, 13, 10] [] (by decide)).1,
    (c5_payload_exact_count [13, 10, 13, 10] [] (by decide)).2⟩

/-- C6 counterexample: on an all-digit run whose value overflows 64 bits
(twenty `'9'` bytes), `u64` does return the Integer-kind malformed-literal
error — but the `scalar` ordered alternation nevertheless falls through to
its text branch and succeeds with a String scalar, so the error kind does
not stop alternation as the claim asserts. -/
theorem c6_cex_scalar_falls_through :
    u64 (List.replicate 20 57) = .error (List.replicate 20 57, .integer) ∧
    scalar (List.replicate 20 57) = .ok ([], .string (List.replicate 20 57)) := by
  exact ⟨by decide, by decide⟩

/-- C6 (amended): once the unsigned-integer matcher has consumed at least
one ASCII digit, its only failure is the Integer-kind malformed-literal
error carrying the whole input (never a `NotMatched` mismatch); however,
the `scalar` alternation tests only success (`if let Ok`), so on such an
error it still falls through to the text branch, which captures the
alphanumeric run as a String scalar. -/
theorem c6_committed_digits_integer_error (b : Nat) (bs : Buf)
    (hb : is_ascii_digit b = true) :
    ((∃ i v, u64 (b :: bs) = .ok (i, v)) ∨
      u64 (b :: bs) = .error (b :: bs, .integer)) ∧
    (u64 (b :: bs) = .error (b :: bs, .integer) →
      scalar (b :: bs) =
        .ok ((b :: bs).dropWhile is_ascii_alphanumeric,
          .string ((b :: bs).takeWhile is_ascii_alphanumeric))) := by
  have h48 : 48 ≤ b ∧ b ≤ 57 := by simpa [is_ascii_digit] using hb
  constructor
  · by_cases hv : digitsVal (b :: List.takeWhile is_ascii_digit bs) < 2 ^ 64
    · left
      refine ⟨List.dropWhile is_ascii_digit bs,
        digitsVal (b :: List.takeWhile is_ascii_digit bs), ?_⟩
      simp [u64, List.takeWhile_cons, List.dropWhile_cons, hb, hv]
      omega
    · right
      simp [u64, List.takeWhile_cons, hb, hv]
      omega
  · intro herr
    have htrue : asciiOf "true" = 116 :: asciiOf "rue" := rfl
    have hfalse : asciiOf "false" = 102 :: asciiOf "alse" := rfl
    have hbool : bool (b :: bs) = .error (b :: bs, .notMatched) := by
      rw [bool, htrue, hfalse, chars_cons_ne bs _ (by omega), chars_cons_ne bs _ (by omega)]
    have hnum : number (b :: bs) = .error (b :: bs, .integer) := by
      rw [number, if_neg (by simp), herr]
    have halnum : is_ascii_alphanumeric b = true := by
      simp [is_ascii_alphanumeric, hb]
    have hstr : string (b :: bs) =
        .ok ((b :: bs).dropWhile is_ascii_alphanumeric,
          (b :: bs).takeWhile is_ascii_alphanumeric) := by
      rw [string, take_while, if_neg (by simp),
        if_neg (by simp [List.takeWhile_cons, halnum])]
    rw [scalar, hbool, hnum, hstr]

/-- C6 witness: instantiation at the overflowing twenty-nines digit run:
the matcher has committed (leading digit), `u64` fails with the
Integer kind, and `scalar` falls through to a String scalar. -/
theorem c6_committed_digits_integer_error_witness :
    is_ascii_digit 57 = true ∧
    ((∃ i v, u64 (57 :: List.replicate 19 57) = .ok (i, v)) ∨
      u64 (57 :: List.replicate 19 57) = .error (57 :: List.replicate 19 57, .integer)) ∧
    scalar (57 :: List.replicate 19 57) =
      .ok ((57 :: List.replicate 19 57).dropWhile is_ascii_alphanumeric,
        .string ((57 :: List.replicate 19 57).takeWhile is_ascii_alphanumeric)) :=
  ⟨by decide, (c6_committed_digits_integer_error 57 (List.replicate 19 57) (by decide)).1,
    (c6_committed_digits_integer_error 57 (List.replicate 19 57) (by decide)).2 (by decide)⟩

/-- C7 counterexample: the CRLF recognizer applied to `[0x0D, 0x58]`
("\r" followed by "X") fails with remainder `"X"` — the `'\r'` has
already been consumed — not with the whole original slice as the claim
asserts. -/
theorem c7_cex_crlf_consumes_cr :
    crlf [13, 88] ≠ .error ([13, 88], .notMatched) ∧
    crlf [13, 88] = .error ([88], .notMatched) := by
  exact ⟨by decide, by decide⟩

/-- C7 (amended): every single-step primitive matcher (`char`, `chars`,
`take`, `take_while`, `take_until`, `u64`, `bool`) returns the original,
unconsumed input slice together with the error kind on failure; but the
CRLF recognizer is a composition of two `char` matchers whose `?` operator
propagates the inner failure position, so on a buffer starting with
`'\r'` not followed by `'\n'` it fails with the `'\r'` already consumed
and the error remainder starting at the following byte. -/
theorem c7_failure_remainder_policy :
    (∀ (buf : Buf) (c : Nat) (i : Buf) (k : ErrorKind),
      char buf c = .error (i, k) → i = buf) ∧
    (∀ (buf v i : Buf) (k : ErrorKind), chars buf v = .error (i, k) → i = buf) ∧
    (∀ (buf : Buf) (n : Nat) (i : Buf) (k : ErrorKind), take buf n = .error (i, k) → i = buf) ∧
    (∀ (buf : Buf) (f : Nat → Bool) (i : Buf) (k : ErrorKind),
      take_while buf f = .error (i, k) → i = buf) ∧
    (∀ (buf : Buf) (f : Nat → Bool) (i : Buf) (k : ErrorKind),
      take_until buf f = .error (i, k) → i = buf) ∧
    (∀ (buf i : Buf) (k : ErrorKind), u64 buf = .error (i, k) → i = buf) ∧
    (∀ (buf i : Buf) (k : ErrorKind), bool buf = .error (i, k) → i = buf) ∧
    (∀ (x : Nat) (bs : Buf), x ≠ 10 → crlf (13 :: x :: bs) = .error (x :: bs, .notMatched)) := by
  refine ⟨fun _ _ _ _ h => char_error_eq h, fun _ _ _ _ h => chars_error_eq h,
    fun _ _ _ _ h => take_error_eq h, fun _ _ _ _ h => take_while_error_eq h,
    fun _ _ _ _ h => take_until_error_eq h, fun _ _ _ h => u64_error_eq h,
    fun _ _ _ h => bool_error_eq h, fun x bs hx => ?_⟩
  simp [crlf, char, hx]

/-- C7 witness: instantiation at concrete inputs: `chars` on
`"foobar"` versus pattern `"bar"` fails with the original slice, and
`crlf` on `"\rX"` fails with the `'\r'` consumed. -/
theorem c7_failure_remainder_policy_witness :
    (chars (asciiOf "foobar") (asciiOf "bar") =
      .error (asciiOf "foobar", .notMatched) → asciiOf "foobar" = asciiOf "foobar") ∧
    ((88 : Nat) ≠ 10 ∧ crlf [13, 88, 99] = .error ([88, 99], .notMatched)) :=
  ⟨fun h => c7_failure_remainder_policy.2.1 (asciiOf "foobar") (asciiOf "bar") _ _ h,
    ⟨by decide, c7_failure_remainder_policy.2.2.2.2.2.2.2 88 [99] (by decide)⟩⟩

end Bsc

namespace Bsc

/-- The name recognizer captures exactly the non-whitespace,
non-hyphen-initial run in front of a whitespace byte. -/
theorem name_run_stop (b0 : Nat) (tl : Buf) (y : Nat) (ys : Buf) (hb0 : b0 ≠ 45)
    (hws : ∀ c ∈ b0 :: tl, is_ascii_whitespace c = false)
    (hy : is_ascii_whitespace y = true) :
    name (b0 :: (tl ++ y :: ys)) = .ok (y :: ys, b0 :: tl) := by
  have hp : ∀ x ∈ b0 :: tl, (fun b => ! is_ascii_whitespace b) x = true := fun x hx => by
    simp [hws x hx]
  obtain ⟨ht, hd⟩ := takeWhile_run_stop (b0 :: tl) y ys hp (by simp [hy])
  rw [List.cons_append] at ht hd
  simp only [name]
  rw [if_neg hb0]
  unfold take_until
  rw [ht, hd]
  simp

/-- A successful `name` capture is non-empty and never starts with a
hyphen. -/
theorem name_ok_head {buf i n : Buf} (h : name buf = .ok (i, n)) :
    n ≠ [] ∧ n.head? ≠ some 45 := by
  cases buf with
  | nil => simp [name] at h
  | cons b0 tl =>
    by_cases hb : b0 = 45
    · simp [name, hb] at h
    · simp only [name] at h
      rw [if_neg hb] at h
      unfold take_until at h
      split at h
      · simp at h
      · split at h
        · simp at h
        · next hc2 =>
          simp only [Except.ok.injEq, Prod.mk.injEq] at h
          obtain ⟨_, hn⟩ := h
          by_cases hp : (fun b => ! is_ascii_whitespace b) b0 = true
          · rw [List.takeWhile_cons, if_pos hp] at hn
            constructor
            · rw [← hn]; simp
            · rw [← hn]; simp [hb]
          · exfalso
            rw [List.takeWhile_cons, if_neg hp] at hc2
            simp at hc2

/-- C9 counterexample: a `USING` reply whose name byte is `0xFF` — not
valid UTF-8 — decodes successfully to a queue-name message carrying that
byte, instead of failing with the text-not-valid-as-UTF-8 error kind. -/
theorem c9_cex_invalid_utf8_name_accepted :
    using_ (asciiOf "USING " ++ [255] ++ [13, 10]) = .ok ([], .using [255]) ∧
    isValidUtf8 [255] = false := by
  exact ⟨by decide, by decide⟩

/-- C9 (amended): the name recognizer performs no UTF-8 validation at
all (the Rust code materializes the bytes with `from_utf8_unchecked` and
never constructs the `NotUTF8` error kind): for any non-empty name run of
non-whitespace bytes not starting with `'-'`, decoding a `USING` reply
succeeds and yields exactly those raw bytes — even when they are not
valid UTF-8. -/
theorem c9_names_materialized_without_utf8_check (b0 : Nat) (tl rest : Buf)
    (hb0 : b0 ≠ 45)
    (hws : ∀ c ∈ b0 :: tl, is_ascii_whitespace c = false)
    (_hutf : isValidUtf8 (b0 :: tl) = false) :
    using_ (asciiOf "USING " ++ ((b0 :: tl) ++ (13 :: 10 :: rest))) =
      .ok (rest, .using (b0 :: tl)) := by
  have hname := name_run_stop b0 tl 13 (10 :: rest) hb0 hws (by decide)
  have hc : chars (asciiOf "USING" ++ (32 :: (b0 :: (tl ++ 13 :: 10 :: rest))))
      (asciiOf "USING") =
      .ok (32 :: (b0 :: (tl ++ 13 :: 10 :: rest)), asciiOf "USING") :=
    chars_exact_match _ _ (by decide)
  rw [show asciiOf "USING " ++ ((b0 :: tl) ++ (13 :: 10 :: rest)) =
    asciiOf "USING" ++ (32 :: (b0 :: (tl ++ 13 :: 10 :: rest))) from rfl]
  simp [using_, hc, space, char, hname, crlf]

/-- C9 witness: instantiation at the single-byte name `0xFF`, which is
not valid UTF-8 and yet is decoded into the produced queue-name
message. -/
theorem c9_names_materialized_without_utf8_check_witness :
    ((255 : Nat) ≠ 45) ∧ (∀ c ∈ (255 :: [] : Buf), is_ascii_whitespace c = false) ∧
    isValidUtf8 (255 :: []) = false ∧
    using_ (asciiOf "USING " ++ ((255 :: []) ++ (13 :: 10 :: []))) =
      .ok ([], .using (255 :: [])) :=
  ⟨by decide, by decide, by decide,
    c9_names_materialized_without_utf8_check 255 [] [] (by decide) (by decide) (by decide)⟩

/-- C10: the decoder-side name recognizer rejects a leading hyphen: a
`USING` reply whose name position starts with `'-'` fails with a
`NotMatched` mismatch carrying the unconsumed name position as remainder,
and — in full generality — every successfully decoded queue-name message
has a non-empty name that does not start with a hyphen. -/
theorem c10_no_hyphen_names :
    (∀ rest : Buf, using_ (asciiOf "USING " ++ (45 :: rest)) =
      .error (45 :: rest, .notMatched)) ∧
    (∀ (buf i n : Buf), using_ buf = .ok (i, .using n) →
      n ≠ [] ∧ n.head? ≠ some 45) := by
  constructor
  · intro rest
    rfl
  · intro buf i n h
    unfold using_ at h
    cases h1 : chars buf (asciiOf "USING") with
    | error e => simp [h1] at h
    | ok p =>
      obtain ⟨i1, v1⟩ := p
      simp only [h1] at h
      cases h2 : space i1 with
      | error e => simp [h2] at h
      | ok q =>
        obtain ⟨i2, v2⟩ := q
        simp only [h2] at h
        cases h3 : name i2 with
        | error e => simp [h3] at h
        | ok r =>
          obtain ⟨i3, nm⟩ := r
          simp only [h3] at h
          cases h4 : crlf i3 with
          | error e => simp [h4] at h
          | ok s =>
            obtain ⟨i4, v4⟩ := s
            simp only [h4] at h
            simp only [Except.ok.injEq, Prod.mk.injEq, Msg.using.injEq] at h
            obtain ⟨-, hn⟩ := h
            subst hn
            exact name_ok_head h3

/-- C10 witness: the well-formed reply `"USING foo\r\n"` decodes, and its
name `"foo"` is non-empty and does not start with a hyphen. -/
theorem c10_no_hyphen_names_witness :
    using_ (asciiOf "USING foo\r\n") = .ok ([], .using (asciiOf "foo")) ∧
    asciiOf "foo" ≠ [] ∧ (asciiOf "foo").head? ≠ some 45 :=
  ⟨by decide, c10_no_hyphen_names.2 (asciiOf "USING foo\r\n") [] (asciiOf "foo") (by decide)⟩

end Bsc
